import Mathlib

/-!
Verification of the coordinate-mapping core of a calendar time-slot selector
browser extension, against its design specification.

The embedding models JavaScript numbers that are relevant here as follows: a
finite JS number is a rational (`ℚ`); `Option ℚ` models a possibly non-finite
number, with `none` standing for `NaN`/`±Infinity` (the code only ever
distinguishes non-finite values through `Number.isFinite` guards and `<=`
comparisons, and on every such path all non-finite values lead to the same
result, so they are conflated).  `Math.round`, `Math.floor` and the JS `%`
remainder (truncated, sign of the dividend) are modelled explicitly.
-/

/-- JS `Math.round`: round half toward positive infinity. -/
def jsRound (q : ℚ) : ℤ := ⌊q + 1 / 2⌋

/-- JS truncation toward zero (used by the JS `%` remainder). -/
def jsTruncQ (q : ℚ) : ℤ := if 0 ≤ q then ⌊q⌋ else ⌈q⌉

/-- JS `%` remainder: `a - b * trunc (a / b)`, sign follows the dividend. -/
def jsRem (a b : ℚ) : ℚ := a - b * (jsTruncQ (a / b) : ℚ)

/-- Subtraction on possibly non-finite JS numbers (`none` = non-finite). -/
def jsSub : Option ℚ → Option ℚ → Option ℚ
  | some a, some b => some (a - b)
  | _, _ => none

/-- Division on possibly non-finite JS numbers; a finite value divided by zero
is `±Infinity`, hence non-finite. -/
def jsDiv : Option ℚ → Option ℚ → Option ℚ
  | some a, some b => if b = 0 then none else some (a / b)
  | _, _ => none

/-- Multiplication on possibly non-finite JS numbers. -/
def jsMul : Option ℚ → Option ℚ → Option ℚ
  | some a, some b => some (a * b)
  | _, _ => none

namespace CONFIG

/-- `CONFIG.SNAP_MINUTES` from `src/config/index.ts`. -/
def SNAP_MINUTES : ℚ := 15

/-- `CONFIG.MIN_DRAG_DISTANCE_PX` from `src/config/index.ts`. -/
def MIN_DRAG_DISTANCE_PX : ℚ := 5

/-- `CONFIG.GCAL_HOUR_HEIGHT_PX` from `src/config/index.ts`. -/
def GCAL_HOUR_HEIGHT_PX : ℚ := 48

/-- `CONFIG.GCAL_START_HOUR` from `src/config/index.ts`. -/
def GCAL_START_HOUR : ℚ := 0

/-- `CONFIG.HOURS_IN_DAY` from `src/config/index.ts`. -/
def HOURS_IN_DAY : ℚ := 24

/-- `CONFIG.MIN_GRID_HEIGHT_PX` from `src/config/index.ts`. -/
def MIN_GRID_HEIGHT_PX : ℚ := 1000

/-- `CONFIG.MIN_HOUR_HEIGHT_PX` from `src/config/index.ts`. -/
def MIN_HOUR_HEIGHT_PX : ℚ := 30

/-- `CONFIG.MAX_HOUR_HEIGHT_PX` from `src/config/index.ts`. -/
def MAX_HOUR_HEIGHT_PX : ℚ := 100

end CONFIG

/-- `roundToInterval` from `src/utils/time.ts`:
`Math.round(minutes / interval) * interval`. -/
def roundToInterval (minutes interval : ℚ) : ℚ :=
  (jsRound (minutes / interval) : ℚ) * interval

/-- `snapToGrid` from `src/utils/time.ts`. -/
def snapToGrid (minutes : ℚ) : ℚ :=
  roundToInterval minutes CONFIG.SNAP_MINUTES

/-- `clampHour` from `src/utils/time.ts`: `Math.max(0, Math.min(23, hour))`. -/
def clampHour (hour : ℚ) : ℚ := max 0 (min 23 hour)

/-- `clampMinute` from `src/utils/time.ts`: `Math.max(0, Math.min(59, minute))`. -/
def clampMinute (minute : ℚ) : ℚ := max 0 (min 59 minute)

/-- The `TimeCoordinate` record (`{hour, minute}`) from `src/types`. -/
structure TimeCoordinate where
  hour : ℚ
  minute : ℚ
deriving DecidableEq

/-- `GridAnalyzer.getTimeFromY` from `src/core/grid-analyzer.ts`
(the debug-instrumented version, `src/unnamed/part_004` lines 253-299).
Inputs: the pointer's client Y (`none` = non-finite), the column element's
`getBoundingClientRect().top` (`none` models a null element or a non-finite
rectangle), and the cached `hourHeight` (`none` = non-finite, which passes
the `hourHeight <= 0` guard exactly like JS `NaN` but is then caught by the
`Number.isFinite(totalMinutes)` guard). -/
def getTimeFromY (y rectTop hourHeight : Option ℚ) : TimeCoordinate :=
  match y with
  | none => ⟨0, 0⟩
  | some yv =>
    match hourHeight with
    | none => ⟨0, 0⟩
    | some h =>
      if h ≤ 0 then ⟨0, 0⟩
      else
        match jsMul (jsDiv (jsSub (some yv) rectTop) (some h)) (some 60) with
        | none => ⟨0, 0⟩
        | some totalMinutes =>
          let snappedMinutes := snapToGrid totalMinutes
          ⟨clampHour (⌊snappedMinutes / 60⌋ : ℚ),
           clampMinute (jsRem snappedMinutes 60)⟩

/-- The host-page environment of one element carrying the per-day marker
attribute (`[data-datekey]`), as observed by `GridAnalyzer.analyze`
(`src/unnamed/part_004` lines 31-142): its layout measurements, its
`data-datekey` attribute value, the calendar date that the multi-strategy
`parseDateKey` resolution would yield for it (`none` when every strategy
fails or yields an invalid date), and the `rect.top` values of the hour
marker elements that `measureHourHeightFromTimeMarkers` would find in its
grandparent container (`none` when the container is missing). -/
structure GAElem where
  offsetHeight : ℚ
  offsetWidth : ℚ
  dateKey : Option String
  rLeft : ℚ
  rRight : ℚ
  rWidth : ℚ
  rHeight : ℚ
  rTop : ℚ
  parsedDate : Option ℤ
  markerTops : Option (List ℚ)
deriving DecidableEq

/-- The `GridColumn` record from `src/types` (dates are modelled by their
`getTime()` value). -/
structure GridColumn where
  element : GAElem
  date : ℤ
  dateKey : String
  left : ℚ
  right : ℚ
  width : ℚ
  top : ℚ
deriving DecidableEq

/-- The `GridCache` record from `src/types`. -/
structure GridCache where
  hourHeight : ℚ
  startHour : ℚ
  gridTop : ℚ
  columns : List GridColumn
deriving DecidableEq

/-- Boolean form of the JS sort comparator `(a, b) => a - b` on rationals. -/
def qLeB (a b : ℚ) : Bool := decide (a ≤ b)

/-- Boolean form of the JS column sort comparator `(a, b) => a.left - b.left`
(`src/unnamed/part_004` line 117). -/
def colLeB (a b : GridColumn) : Bool := decide (a.left ≤ b.left)

/-- The body of the measurement loop of `measureHourHeightFromTimeMarkers`
(`src/unnamed/part_004` lines 214-224): the gap between marker `i` and marker
`i + 1`, kept only when it lies within
`[MIN_HOUR_HEIGHT_PX, MAX_HOUR_HEIGHT_PX]`. -/
def gapAt (tops : List ℚ) (i : ℕ) : Option ℚ :=
  let distance := tops.getD (i + 1) 0 - tops.getD i 0
  if CONFIG.MIN_HOUR_HEIGHT_PX ≤ distance ∧ distance ≤ CONFIG.MAX_HOUR_HEIGHT_PX then
    some distance
  else none

/-- The gaps kept by the measurement loop: one candidate gap per loop index
`i < Math.min(timeElements.length - 1, 5)`. -/
def measuredGaps (tops : List ℚ) : List ℚ :=
  (List.range (min (tops.length - 1) 5)).filterMap (gapAt tops)

/-- The median step of `measureHourHeightFromTimeMarkers`
(`src/unnamed/part_004` lines 230-236): sort ascending, take the entry at
index `Math.floor(length / 2)`. -/
def medianOfMeasurements (measurements : List ℚ) : ℚ :=
  (measurements.mergeSort qLeB).getD (measurements.length / 2) 0

/-- `GridAnalyzer.measureHourHeightFromTimeMarkers`
(`src/unnamed/part_004` lines 195-241); returns 0 on every failure path. -/
def measureHourHeightFromTimeMarkers (markerTops : Option (List ℚ)) : ℚ :=
  match markerTops with
  | none => 0
  | some tops =>
    if tops.length < 2 then 0
    else
      let measurements := measuredGaps tops
      if measurements.isEmpty then 0
      else medianOfMeasurements measurements

/-- `GridAnalyzer.calculateHourHeight` (`src/unnamed/part_004` lines 155-184):
marker measurement, then grid-height fallback inside the sane band,
then the fixed default. -/
def calculateHourHeight (markerTops : Option (List ℚ)) (totalHeight : ℚ) : ℚ :=
  let hourHeight := measureHourHeightFromTimeMarkers markerTops
  if 0 < hourHeight then hourHeight
  else if CONFIG.HOURS_IN_DAY * CONFIG.MIN_HOUR_HEIGHT_PX ≤ totalHeight ∧
      totalHeight ≤ CONFIG.HOURS_IN_DAY * CONFIG.MAX_HOUR_HEIGHT_PX then
    totalHeight / CONFIG.HOURS_IN_DAY
  else CONFIG.GCAL_HOUR_HEIGHT_PX

/-- The candidate filter of `GridAnalyzer.analyze` (`src/unnamed/part_004`
lines 46-55): keep elements with `offsetHeight > MIN_GRID_HEIGHT_PX` and
`offsetWidth > 0`. -/
def isTimeGrid (el : GAElem) : Bool :=
  decide (CONFIG.MIN_GRID_HEIGHT_PX < el.offsetHeight ∧ 0 < el.offsetWidth)

/-- The column-construction loop of `GridAnalyzer.analyze`
(`src/unnamed/part_004` lines 78-109): drop candidates without a
`data-datekey`, with a zero-size rectangle, or whose date resolution fails. -/
def buildColumns (timeGrids : List GAElem) : List GridColumn :=
  timeGrids.filterMap fun grid =>
    match grid.dateKey with
    | none => none
    | some dk =>
      if grid.rWidth = 0 ∨ grid.rHeight = 0 then none
      else
        match grid.parsedDate with
        | none => none
        | some d => some ⟨grid, d, dk, grid.rLeft, grid.rRight, grid.rWidth, grid.rTop⟩

/-- `GridAnalyzer.analyze` (`src/unnamed/part_004` lines 31-142) as a function
from the owned `GridCache` and the page's marker-bearing elements to the
returned boolean and the `GridCache` after the call.  The mutation
`this.gridCache.columns = []` followed by the construction loop happens
before the `columns.length === 0` failure check, which is why that failure
path returns the cache with the freshly built (empty) column list while
keeping the previous `hourHeight` and `gridTop`.  The `[]` arm of the match
on the sorted columns is unreachable (sorting preserves length). -/
def analyze (cache : GridCache) (page : List GAElem) (scrollY : ℚ) : Bool × GridCache :=
  if page.length = 0 then (false, cache)
  else
    let timeGrids := page.filter isTimeGrid
    if timeGrids.length = 0 then (false, cache)
    else
      let cols := buildColumns timeGrids
      if cols.length = 0 then (false, { cache with columns := cols })
      else
        match cols.mergeSort colLeB with
        | [] => (false, { cache with columns := cols })
        | c0 :: rest =>
          let hourHeight := calculateHourHeight c0.element.markerTops c0.element.offsetHeight
          if hourHeight ≤ 0 then
            (false, { cache with columns := c0 :: rest, hourHeight := hourHeight })
          else
            (true,
              { cache with
                  columns := c0 :: rest
                  hourHeight := hourHeight
                  gridTop := c0.top + scrollY })

/-- The linear-scan branch of `GridAnalyzer.getColumnFromX`
(`src/unnamed/part_004` lines 321-327): return the first column whose
`[left, right]` range contains `x`. -/
def linearColumnFromX (columns : List GridColumn) (x : ℚ) : Option GridColumn :=
  columns.find? fun c => decide (c.left ≤ x) && decide (x ≤ c.right)

/-- The binary-search branch of `GridAnalyzer.getColumnFromX`
(`src/unnamed/part_004` lines 330-347), with the loop state `(left, right)`
made explicit.  `mid = (left + right) / 2` rounds toward negative infinity
like `Math.floor` (Lean's `Int` division by the positive literal 2 is floor
division).  The `none` arm of the index lookup is unreachable for the
in-range windows the code produces. -/
def binarySearchColumns (columns : List GridColumn) (x : ℚ) (lo hi : ℤ) :
    Option GridColumn :=
  if _hlh : lo ≤ hi then
    match columns[((lo + hi) / 2).toNat]? with
    | none => none
    | some c =>
      if c.left ≤ x ∧ x ≤ c.right then some c
      else if x < c.left then binarySearchColumns columns x lo ((lo + hi) / 2 - 1)
      else binarySearchColumns columns x ((lo + hi) / 2 + 1) hi
  else none
termination_by (hi + 1 - lo).toNat
decreasing_by
  · omega
  · omega

/-- `GridAnalyzer.getColumnFromX` (`src/unnamed/part_004` lines 310-352):
`none` for a non-finite `x`; linear scan over the cached columns when there
are at most 10 of them, binary search over `[0, length - 1]` otherwise. -/
def getColumnFromX (columns : List GridColumn) (x : Option ℚ) : Option GridColumn :=
  match x with
  | none => none
  | some xv =>
    if columns.length ≤ 10 then linearColumnFromX columns xv
    else binarySearchColumns columns xv 0 ((columns.length : ℤ) - 1)

/-- The `TimeSlot` record from `src/types`.  `date` is the JS `Date` through
its `getTime()` value; `none` models an invalid date (`NaN` time).  `overlay`
records whether a visual overlay handle is attached. -/
structure TimeSlot where
  date : Option ℤ
  startHour : ℚ
  startMin : ℚ
  endHour : ℚ
  endMin : ℚ
  overlay : Bool
  column : GridColumn
deriving DecidableEq

/-- The `a.date.getTime()` value used by the sort comparator of
`SlotManager.sortSlots` (`src/unnamed/part_005` lines 138-147).  For a valid
date this is its time value; an invalid date gives `NaN`, for which
`Array.prototype.sort` with this comparator has unspecified behaviour, so the
model fixes it to 0. -/
def dateTimeVal (s : TimeSlot) : ℤ := s.date.getD 0

/-- The start-of-day minute offset `startHour * 60 + startMin` used by the
sort comparator. -/
def startTotal (s : TimeSlot) : ℚ := s.startHour * 60 + s.startMin

/-- Boolean form of the `sortSlots` comparator
`(a, b) => a.date.getTime() !== b.date.getTime() ? aT - bT : aStart - bStart`:
`a` sorts no later than `b`. -/
def slotLe (a b : TimeSlot) : Bool :=
  if dateTimeVal a = dateTimeVal b then decide (startTotal a ≤ startTotal b)
  else decide (dateTimeVal a < dateTimeVal b)

/-- `SlotManager.sortSlots` (`src/unnamed/part_005` lines 138-147); JS
`Array.prototype.sort` is stable, as is `List.mergeSort`. -/
def sortSlots (slots : List TimeSlot) : List TimeSlot := slots.mergeSort slotLe

/-- `SlotManager.addSlot` (`src/unnamed/part_005` lines 18-27): push, then
re-sort the whole collection. -/
def addSlot (slots : List TimeSlot) (slot : TimeSlot) : List TimeSlot :=
  sortSlots (slots ++ [slot])

/-- `SlotManager.isDuplicate` (`src/unnamed/part_005` lines 108-133).  The
candidate is `Option TimeSlot` so that a null/undefined argument is
representable; a candidate with an invalid date is treated as a duplicate.
A stored slot with an invalid date never matches (in JS, `NaN === NaN` is
false). -/
def isDuplicate (slots : List TimeSlot) (newSlot : Option TimeSlot) : Bool :=
  match newSlot with
  | none => true
  | some ns =>
    match ns.date with
    | none => true
    | some t =>
      slots.any fun s =>
        decide (s.date = some t) && decide (s.startHour = ns.startHour) &&
          decide (s.startMin = ns.startMin) && decide (s.endHour = ns.endHour) &&
          decide (s.endMin = ns.endMin)

/-- The membership test `visibleDateKeys.has(slot.column.dateKey)` of
`SlotManager.filterByVisibleDates` (the `Set` is modelled by a list of
keys). -/
def isVisibleSlot (visibleDateKeys : List String) (s : TimeSlot) : Bool :=
  visibleDateKeys.contains s.column.dateKey

/-- Observable outcome of one `SlotManager.filterByVisibleDates` call: the
slot list afterwards, the removed slots (exactly those whose overlay handles
were released), and whether `updateSlotList` was invoked. -/
structure FilterOutcome where
  slots : List TimeSlot
  removed : List TimeSlot
  uiUpdated : Bool

/-- `SlotManager.filterByVisibleDates` (`src/unnamed/part_005` lines 65-99):
compute the out-of-view slots, release their overlays, keep the rest, and
refresh the UI only when the count changed. -/
def filterByVisibleDates (slots : List TimeSlot) (visibleDateKeys : List String) :
    FilterOutcome :=
  let initialCount := slots.length
  let slotsToRemove := slots.filter fun s => !(isVisibleSlot visibleDateKeys s)
  let kept := slots.filter (isVisibleSlot visibleDateKeys)
  ⟨kept, slotsToRemove, decide (initialCount ≠ kept.length)⟩

/-- The `DragState` record from `src/types`; `tempOverlay` records whether the
temporary drag overlay element currently exists. -/
structure DragState where
  isDragging : Bool
  startX : ℚ
  startY : ℚ
  currentX : ℚ
  currentY : ℚ
  dateColumn : Option GridColumn
  tempOverlay : Bool
deriving DecidableEq

/-- Observable outcome of one `DragHandler.handleMouseUp` call: the drag state
afterwards, the Selection Store's slot list afterwards, and the `TimeSlot`
object constructed during the call (`none` when the drag was rejected as an
accidental click). -/
structure MouseUpOutcome where
  state : DragState
  slots : List TimeSlot
  created : Option TimeSlot
deriving DecidableEq

/-- The `TimeSlot` construction of `DragHandler.handleMouseUp`
(`src/core/drag-handler.ts` lines 227-255): start/end times come from
`getTimeFromY` at the min/max of the drag's two Y coordinates, the date is
copied from the locked column, and the overlay is initially null. -/
def slotFromDrag (rectTop hourHeight : Option ℚ) (col : GridColumn)
    (startY currentY : ℚ) : TimeSlot :=
  let startTime := getTimeFromY (some (min startY currentY)) rectTop hourHeight
  let endTime := getTimeFromY (some (max startY currentY)) rectTop hourHeight
  ⟨some col.date, startTime.hour, startTime.minute, endTime.hour, endTime.minute,
    false, col⟩

/-- `DragHandler.handleMouseUp` (`src/core/drag-handler.ts` lines 200-284,
identically in both repository versions): ignore when not dragging or no
locked column; clear `isDragging`; reject drags shorter than
`MIN_DRAG_DISTANCE_PX` (removing the temporary overlay, creating no slot);
otherwise build the slot, add it unless it is a duplicate (the added copy
carries the permanent overlay), and remove the temporary overlay. -/
def handleMouseUp (rectTop hourHeight : Option ℚ) (st : DragState)
    (slots : List TimeSlot) : MouseUpOutcome :=
  match st.isDragging, st.dateColumn with
  | true, some col =>
    if |st.currentY - st.startY| < CONFIG.MIN_DRAG_DISTANCE_PX then
      ⟨{ st with isDragging := false, tempOverlay := false }, slots, none⟩
    else
      let slot := slotFromDrag rectTop hourHeight col st.startY st.currentY
      if isDuplicate slots (some slot) then
        ⟨{ st with isDragging := false, tempOverlay := false }, slots, some slot⟩
      else
        ⟨{ st with isDragging := false, tempOverlay := false },
          addSlot slots { slot with overlay := true }, some slot⟩
  | _, _ => ⟨st, slots, none⟩

/-- A marker element used to populate a sample cached column. -/
def elemPrev : GAElem := ⟨1500, 100, some "a", 0, 100, 100, 1500, 0, some 0, none⟩

/-- A previously cached grid column. -/
def colPrev : GridColumn := ⟨elemPrev, 0, "a", 0, 100, 100, 0⟩

/-- A previously populated grid cache. -/
def cachePrev : GridCache := ⟨48, 0, 0, [colPrev]⟩

/-- A marker-bearing candidate that passes the size filter but whose date
resolution fails (every `parseDateKey` strategy comes up empty). -/
def elemUnresolvable : GAElem := ⟨1500, 100, some "300", 0, 100, 100, 1500, 0, none, none⟩

/-- A chronologically later sample slot. -/
def slotLater : TimeSlot := ⟨some 1, 10, 0, 11, 0, false, colPrev⟩

/-- A chronologically earlier sample slot. -/
def slotEarlier : TimeSlot := ⟨some 0, 9, 0, 10, 0, false, colPrev⟩

/-- A stored sample slot. -/
def slotStored : TimeSlot := ⟨some 5, 10, 0, 11, 30, true, colPrev⟩

/-- A candidate equal to `slotStored` on the five compared fields but a
distinct record (different overlay state). -/
def slotCandidate : TimeSlot := ⟨some 5, 10, 0, 11, 30, false, colPrev⟩

/-- A drag state three pixels long (from Y=10 to Y=13). -/
def dragShort : DragState := ⟨true, 0, 10, 0, 13, some colPrev, true⟩

/-- A drag state exactly five pixels long (from Y=8 to Y=13), which the
minimum-drag-distance check accepts. -/
def dragFive : DragState := ⟨true, 0, 8, 0, 13, some colPrev, true⟩

/-- The degenerate slot produced by `dragFive` with `hourHeight = 48` and
`rect.top = 0`: both endpoints snap to 0:15. -/
def slotDegenerate : TimeSlot := ⟨some 0, 0, 15, 0, 15, false, colPrev⟩

/-- A one-hour drag (from Y=0 to Y=48). -/
def dragHour : DragState := ⟨true, 0, 0, 0, 48, some colPrev, true⟩

/-- A first sample column occupying `[0, 10]`. -/
def colAt0 : GridColumn := ⟨elemPrev, 0, "d0", 0, 10, 10, 0⟩

/-- A second sample column occupying `[20, 30]`. -/
def colAt20 : GridColumn := ⟨elemPrev, 1, "d1", 20, 30, 10, 0⟩

theorem jsRound_le (q : ℚ) : (jsRound q : ℚ) ≤ q + 1 / 2 := by
  simpa [jsRound] using Int.floor_le (q + 1 / 2)

theorem lt_jsRound (q : ℚ) : q - 1 / 2 < (jsRound q : ℚ) := by
  have h := Int.lt_floor_add_one (q + 1 / 2)
  simp only [jsRound]
  linarith

theorem jsRound_mono {a b : ℚ} (h : a ≤ b) : jsRound a ≤ jsRound b :=
  Int.floor_le_floor (by linarith)

theorem snapToGrid_eq (m : ℚ) : snapToGrid m = (jsRound (m / 15) : ℚ) * 15 := rfl

theorem snapToGrid_int (m : ℚ) : ∃ k : ℤ, snapToGrid m = 15 * k :=
  ⟨jsRound (m / 15), by rw [snapToGrid_eq]; ring⟩

theorem snapToGrid_sub_le (m : ℚ) : snapToGrid m - m ≤ 15 / 2 := by
  have h := jsRound_le (m / 15)
  have hm : (m / 15) * 15 = m := by ring
  rw [snapToGrid_eq]
  nlinarith

theorem neg_lt_snapToGrid_sub (m : ℚ) : -(15 / 2) < snapToGrid m - m := by
  have h := lt_jsRound (m / 15)
  have hm : (m / 15) * 15 = m := by ring
  rw [snapToGrid_eq]
  nlinarith

theorem snapToGrid_mono {a b : ℚ} (h : a ≤ b) : snapToGrid a ≤ snapToGrid b := by
  rw [snapToGrid_eq, snapToGrid_eq]
  have : jsRound (a / 15) ≤ jsRound (b / 15) := jsRound_mono (by linarith)
  have h15 : ((jsRound (a / 15) : ℚ)) ≤ (jsRound (b / 15) : ℚ) := by exact_mod_cast this
  nlinarith

theorem clampHour_nonneg (q : ℚ) : 0 ≤ clampHour q := le_max_left 0 _

theorem clampHour_le (q : ℚ) : clampHour q ≤ 23 :=
  max_le (by norm_num) (min_le_left 23 q)

theorem clampMinute_nonneg (q : ℚ) : 0 ≤ clampMinute q := le_max_left 0 _

theorem clampMinute_le (q : ℚ) : clampMinute q ≤ 59 :=
  max_le (by norm_num) (min_le_left 59 q)

theorem getTimeFromY_eval (yv t h : ℚ) (hpos : 0 < h) :
    getTimeFromY (some yv) (some t) (some h) =
      ⟨clampHour (⌊snapToGrid ((yv - t) / h * 60) / 60⌋ : ℚ),
       clampMinute (jsRem (snapToGrid ((yv - t) / h * 60)) 60)⟩ := by
  simp [getTimeFromY, if_neg (not_le.mpr hpos), jsSub, jsDiv, jsMul, ne_of_gt hpos]

/-- C2: for every number of minutes `m`, `snapToGrid m` is an integer multiple
of the configured snap granularity (`CONFIG.SNAP_MINUTES = 15`) and
`|snapToGrid m - m| <= granularity / 2 = 7.5`. -/
theorem C2_snapToGrid_spec (m : ℚ) :
    (∃ k : ℤ, snapToGrid m = CONFIG.SNAP_MINUTES * k) ∧
    |snapToGrid m - m| ≤ CONFIG.SNAP_MINUTES / 2 := by
  constructor
  · have ⟨k, hk⟩ := snapToGrid_int m
    exact ⟨k, by rw [hk]; norm_num [CONFIG.SNAP_MINUTES]⟩
  · rw [abs_le]
    constructor
    · have := neg_lt_snapToGrid_sub m
      norm_num [CONFIG.SNAP_MINUTES]
      linarith
    · have := snapToGrid_sub_le m
      norm_num [CONFIG.SNAP_MINUTES]
      linarith

/-- C1: `getTimeFromY` returns `{hour := 0, minute := 0}` whenever the Y input
is non-finite, the cached `hourHeight` is not a positive finite number, or the
computed total-minutes value is non-finite (modelled by a non-finite
`rect.top`); being a total Lean function it never throws.  For every valid
input it returns the raw minute offset `(y - rect.top) / hourHeight * 60`
snapped to the nearest multiple of 15 minutes round-half-up (the snapped value
is an integer multiple of 15 within `(-7.5, +7.5]` of the raw value), with the
resulting hour `⌊snapped / 60⌋` clamped to `[0, 23]` and the resulting minute
`snapped % 60` clamped to `[0, 59]`. -/
theorem C1_getTimeFromY_spec :
    (∀ rectTop hourHeight, getTimeFromY none rectTop hourHeight = ⟨0, 0⟩) ∧
    (∀ (yv : ℚ) (rectTop : Option ℚ) (h : ℚ), h ≤ 0 →
      getTimeFromY (some yv) rectTop (some h) = ⟨0, 0⟩) ∧
    (∀ (yv : ℚ) (rectTop : Option ℚ), getTimeFromY (some yv) rectTop none = ⟨0, 0⟩) ∧
    (∀ (yv h : ℚ), 0 < h → getTimeFromY (some yv) none (some h) = ⟨0, 0⟩) ∧
    (∀ (yv t h : ℚ), 0 < h →
      getTimeFromY (some yv) (some t) (some h) =
        ⟨clampHour (⌊snapToGrid ((yv - t) / h * 60) / 60⌋ : ℚ),
         clampMinute (jsRem (snapToGrid ((yv - t) / h * 60)) 60)⟩ ∧
      (∃ k : ℤ, snapToGrid ((yv - t) / h * 60) = 15 * k) ∧
      -(15 / 2 : ℚ) < snapToGrid ((yv - t) / h * 60) - (yv - t) / h * 60 ∧
      snapToGrid ((yv - t) / h * 60) - (yv - t) / h * 60 ≤ 15 / 2 ∧
      0 ≤ (getTimeFromY (some yv) (some t) (some h)).hour ∧
      (getTimeFromY (some yv) (some t) (some h)).hour ≤ 23 ∧
      0 ≤ (getTimeFromY (some yv) (some t) (some h)).minute ∧
      (getTimeFromY (some yv) (some t) (some h)).minute ≤ 59) := by
  refine ⟨fun _ _ => rfl, ?_, ?_, ?_, ?_⟩
  · intro yv rectTop h hle
    simp [getTimeFromY, if_pos hle]
  · intro yv rectTop
    rfl
  · intro yv h hpos
    simp [getTimeFromY, if_neg (not_le.mpr hpos), jsSub, jsDiv, jsMul]
  · intro yv t h hpos
    have heval := getTimeFromY_eval yv t h hpos
    refine ⟨heval, snapToGrid_int _, neg_lt_snapToGrid_sub _, snapToGrid_sub_le _, ?_, ?_, ?_, ?_⟩
    · rw [heval]; exact clampHour_nonneg _
    · rw [heval]; exact clampHour_le _
    · rw [heval]; exact clampMinute_nonneg _
    · rw [heval]; exact clampMinute_le _

/-- Witness for C1: concrete valid input `y = 8`, `rect.top = 0`,
`hourHeight = 48` (raw offset 10 minutes, snapped to 15). -/
theorem C1_getTimeFromY_spec_witness :
    (0 : ℚ) < 48 ∧
    getTimeFromY (some 8) (some 0) (some 48) =
      ⟨clampHour (⌊snapToGrid ((8 - 0) / 48 * 60) / 60⌋ : ℚ),
       clampMinute (jsRem (snapToGrid ((8 - 0) / 48 * 60)) 60)⟩ :=
  ⟨by norm_num, (C1_getTimeFromY_spec.2.2.2.2 8 0 48 (by norm_num)).1⟩

theorem measuredGaps_bounds {tops : List ℚ} {d : ℚ} (hd : d ∈ measuredGaps tops) :
    CONFIG.MIN_HOUR_HEIGHT_PX ≤ d ∧ d ≤ CONFIG.MAX_HOUR_HEIGHT_PX := by
  simp only [measuredGaps, List.mem_filterMap] at hd
  obtain ⟨i, -, hi⟩ := hd
  simp only [gapAt] at hi
  split at hi
  · next hcond => cases hi; exact hcond
  · exact absurd hi (by simp)

theorem medianOfMeasurements_mem {ms : List ℚ} (h : ms ≠ []) :
    medianOfMeasurements ms ∈ ms := by
  have hperm := List.mergeSort_perm ms qLeB
  have hlen : (ms.mergeSort qLeB).length = ms.length := hperm.length_eq
  have hpos : 0 < ms.length := List.length_pos.mpr h
  have hidx : ms.length / 2 < (ms.mergeSort qLeB).length := by
    rw [hlen]; exact Nat.div_lt_self hpos (by norm_num)
  rw [medianOfMeasurements, List.getD_eq_getElem _ _ hidx]
  exact hperm.mem_iff.mp (List.getElem_mem hidx)

theorem measuredGaps_ne_imp_two_markers {tops : List ℚ} (h : measuredGaps tops ≠ []) :
    ¬tops.length < 2 := by
  intro hlt
  apply h
  have hmin : min (tops.length - 1) 5 = 0 := by omega
  simp [measuredGaps, hmin]

theorem measure_eq_median {tops : List ℚ} (h : measuredGaps tops ≠ []) :
    measureHourHeightFromTimeMarkers (some tops) =
      medianOfMeasurements (measuredGaps tops) := by
  have h2 := measuredGaps_ne_imp_two_markers h
  simp only [measureHourHeightFromTimeMarkers, if_neg h2]
  rw [if_neg (by simpa [List.isEmpty_iff] using h)]

theorem medianOfMeasurements_pos {tops : List ℚ} (h : measuredGaps tops ≠ []) :
    0 < medianOfMeasurements (measuredGaps tops) := by
  have hlo := (measuredGaps_bounds (medianOfMeasurements_mem h)).1
  norm_num [CONFIG.MIN_HOUR_HEIGHT_PX] at hlo
  linarith

theorem measure_cases (markerTops : Option (List ℚ)) :
    measureHourHeightFromTimeMarkers markerTops = 0 ∨
      0 < measureHourHeightFromTimeMarkers markerTops := by
  match markerTops with
  | none => exact Or.inl rfl
  | some tops =>
    by_cases h2 : tops.length < 2
    · exact Or.inl (by simp [measureHourHeightFromTimeMarkers, if_pos h2])
    · by_cases hemp : measuredGaps tops = []
      · exact Or.inl (by simp [measureHourHeightFromTimeMarkers, if_neg h2, hemp])
      · exact Or.inr ((measure_eq_median hemp) ▸ medianOfMeasurements_pos hemp)

theorem calculateHourHeight_pos (markerTops : Option (List ℚ)) (totalHeight : ℚ) :
    0 < calculateHourHeight markerTops totalHeight := by
  simp only [calculateHourHeight]
  split_ifs with h1 h2
  · exact h1
  · refine div_pos ?_ (by norm_num [CONFIG.HOURS_IN_DAY])
    have hlo := h2.1
    norm_num [CONFIG.HOURS_IN_DAY, CONFIG.MIN_HOUR_HEIGHT_PX] at hlo
    linarith
  · norm_num [CONFIG.GCAL_HOUR_HEIGHT_PX]

/-- C5 (amended): `calculateHourHeight` follows the three-tier fallback with
the first tier triggered by at least ONE measured marker gap inside
`[30, 100]` px (not two, as claimed): (1) whenever the measurement loop keeps
at least one gap, the result is the median (upper median, index
`⌊count / 2⌋` of the ascending sort) of the kept gaps; (2) otherwise, for a
column pixel height within `[24*30, 24*100] = [720, 2400]`, the result is
exactly `height / 24`; (3) otherwise the fixed default 48 px; and the result
is always positive. -/
theorem C5_calculateHourHeight_spec :
    (∀ (tops : List ℚ) (totalHeight : ℚ), measuredGaps tops ≠ [] →
      calculateHourHeight (some tops) totalHeight =
        medianOfMeasurements (measuredGaps tops)) ∧
    (∀ (markerTops : Option (List ℚ)) (totalHeight : ℚ),
      measureHourHeightFromTimeMarkers markerTops = 0 →
      CONFIG.HOURS_IN_DAY * CONFIG.MIN_HOUR_HEIGHT_PX ≤ totalHeight →
      totalHeight ≤ CONFIG.HOURS_IN_DAY * CONFIG.MAX_HOUR_HEIGHT_PX →
      calculateHourHeight markerTops totalHeight = totalHeight / CONFIG.HOURS_IN_DAY) ∧
    (∀ (markerTops : Option (List ℚ)) (totalHeight : ℚ),
      measureHourHeightFromTimeMarkers markerTops = 0 →
      ¬(CONFIG.HOURS_IN_DAY * CONFIG.MIN_HOUR_HEIGHT_PX ≤ totalHeight ∧
        totalHeight ≤ CONFIG.HOURS_IN_DAY * CONFIG.MAX_HOUR_HEIGHT_PX) →
      calculateHourHeight markerTops totalHeight = CONFIG.GCAL_HOUR_HEIGHT_PX) ∧
    (∀ (markerTops : Option (List ℚ)) (totalHeight : ℚ),
      0 < calculateHourHeight markerTops totalHeight) := by
  refine ⟨?_, ?_, ?_, calculateHourHeight_pos⟩
  · intro tops totalHeight hne
    simp only [calculateHourHeight]
    rw [measure_eq_median hne, if_pos (medianOfMeasurements_pos hne)]
  · intro markerTops totalHeight h0 hlo hhi
    simp only [calculateHourHeight]
    rw [h0, if_neg (by norm_num), if_pos ⟨hlo, hhi⟩]
  · intro markerTops totalHeight h0 hband
    simp only [calculateHourHeight]
    rw [h0, if_neg (by norm_num), if_neg hband]

/-- Witness for C5: marker tops `[0, 50, 100]` yield two valid gaps, so the
result is their median. -/
theorem C5_calculateHourHeight_spec_witness :
    calculateHourHeight (some [0, 50, 100]) 0 =
      medianOfMeasurements (measuredGaps [0, 50, 100]) :=
  C5_calculateHourHeight_spec.1 [0, 50, 100] 0 (by
    have hf0 : gapAt [0, 50, 100] 0 = some 50 := by
      norm_num [gapAt, List.getD_cons_zero, List.getD_cons_succ,
        CONFIG.MIN_HOUR_HEIGHT_PX, CONFIG.MAX_HOUR_HEIGHT_PX]
    have hr : List.range 2 = [0, 1] := rfl
    simp only [measuredGaps, List.length_cons, List.length_nil]
    norm_num [hr, List.filterMap_cons, hf0]
    exact List.cons_ne_nil _ _)

/-- Counterexample for C5 as stated: marker tops `[0, 40, 200]` yield exactly
ONE gap inside `[30, 100]` (namely 40; the second gap 160 is rejected), which
is fewer than the two gaps the claim requires for tier (1); the column height
1200 lies inside the sane band `[720, 2400]`, so the claim predicts the
fallback result `1200 / 24 = 50`, but the code returns the single measured
gap 40. -/
theorem C5_counterexample :
    (measuredGaps [0, 40, 200]).length = 1 ∧
    ((24 : ℚ) * 30 ≤ 1200 ∧ (1200 : ℚ) ≤ 24 * 100) ∧
    calculateHourHeight (some [0, 40, 200]) 1200 = 40 ∧
    (40 : ℚ) ≠ 1200 / 24 := by
  have hf0 : gapAt [0, 40, 200] 0 = some 40 := by
    norm_num [gapAt, List.getD_cons_zero, List.getD_cons_succ,
      CONFIG.MIN_HOUR_HEIGHT_PX, CONFIG.MAX_HOUR_HEIGHT_PX]
  have hf1 : gapAt [0, 40, 200] 1 = none := by
    norm_num [gapAt, List.getD_cons_zero, List.getD_cons_succ,
      CONFIG.MIN_HOUR_HEIGHT_PX, CONFIG.MAX_HOUR_HEIGHT_PX]
  have hr : List.range 2 = [0, 1] := rfl
  have hg : measuredGaps [0, 40, 200] = [40] := by
    simp only [measuredGaps, List.length_cons, List.length_nil]
    norm_num [hr, List.filterMap_cons, hf0, hf1]
  refine ⟨by rw [hg]; rfl, by norm_num, ?_, by norm_num⟩
  have h1 := C5_calculateHourHeight_spec.1 [0, 40, 200] 1200 (by rw [hg]; simp)
  rw [h1, hg, medianOfMeasurements, List.mergeSort_singleton]
  norm_num

/-- C4 (amended): when `analyze` returns `false` it leaves the `GridCache`
either fully untouched (the failure paths before column construction: no
marker-bearing element at all, or none passing the size filter — these cover
end-to-end scenario 4) or with its previous `hourHeight` and `gridTop` but
its `columns` cleared to `[]` (the failure path where marker-bearing
candidates pass the filter but none yields a resolvable column, because the
code resets `gridCache.columns` before running the construction loop).  The
cache is therefore NOT always left exactly as it was. -/
theorem C4_analyze_failure (cache : GridCache) (page : List GAElem) (scrollY : ℚ)
    (hfail : (analyze cache page scrollY).1 = false) :
    (analyze cache page scrollY).2 = cache ∨
      (analyze cache page scrollY).2 = { cache with columns := [] } := by
  by_cases h0 : page.length = 0
  · left
    simp [analyze, h0]
  · by_cases h1 : (page.filter isTimeGrid).length = 0
    · left
      simp [analyze, h0, h1]
    · by_cases h2 : (buildColumns (page.filter isTimeGrid)).length = 0
      · right
        have hnil : buildColumns (page.filter isTimeGrid) = [] := List.length_eq_zero.mp h2
        simp [analyze, h0, h1, h2, hnil]
      · exfalso
        have hsne : (buildColumns (page.filter isTimeGrid)).mergeSort colLeB ≠ [] := by
          intro hs
          apply h2
          have hlen := (List.mergeSort_perm (buildColumns (page.filter isTimeGrid)) colLeB).length_eq
          rw [hs] at hlen
          simpa using hlen.symm
        obtain ⟨c0, rest, hsc⟩ := List.exists_cons_of_ne_nil hsne
        have hpos := calculateHourHeight_pos c0.element.markerTops c0.element.offsetHeight
        simp [analyze, h0, h1, h2, hsc, not_le.mpr hpos] at hfail

/-- Witness for C4: `analyze` on a page with zero marker-bearing elements
fails and leaves the previous cache in one of the two described states (here:
untouched). -/
theorem C4_analyze_failure_witness :
    (analyze cachePrev [] 0).2 = cachePrev ∨
      (analyze cachePrev [] 0).2 = { cachePrev with columns := [] } :=
  C4_analyze_failure cachePrev [] 0 rfl

/-- Counterexample for C4 as stated: a page with one marker-bearing element
that passes the height/width filter but yields no resolvable column makes
`analyze` return `false` while clearing the previously cached columns, so the
cache is not left as it was. -/
theorem C4_counterexample :
    (analyze cachePrev [elemUnresolvable] 0).1 = false ∧
    (analyze cachePrev [elemUnresolvable] 0).2.columns = [] ∧
    cachePrev.columns = [colPrev] ∧
    (analyze cachePrev [elemUnresolvable] 0).2 ≠ cachePrev := by
  have hfilter : isTimeGrid elemUnresolvable = true := by
    simp only [isTimeGrid, elemUnresolvable, decide_eq_true_eq]
    norm_num [CONFIG.MIN_GRID_HEIGHT_PX]
  have hcols : buildColumns [elemUnresolvable] = [] := by
    simp [buildColumns, elemUnresolvable]
  have heval : analyze cachePrev [elemUnresolvable] 0 =
      (false, { cachePrev with columns := [] }) := by
    simp [analyze, List.filter, hfilter, hcols]
  refine ⟨by rw [heval], by rw [heval], rfl, ?_⟩
  rw [heval]
  simp only [cachePrev, ne_eq, GridCache.mk.injEq]
  simp

theorem slotLe_total (a b : TimeSlot) : (slotLe a b || slotLe b a) = true := by
  simp only [slotLe]
  by_cases h : dateTimeVal a = dateTimeVal b
  · rw [if_pos h, if_pos h.symm]
    rcases le_total (startTotal a) (startTotal b) with h' | h' <;> simp [h']
  · rw [if_neg h, if_neg (Ne.symm h)]
    rcases lt_or_gt_of_ne h with h' | h' <;> simp [h', asymm h']

theorem slotLe_trans (a b c : TimeSlot) :
    slotLe a b = true → slotLe b c = true → slotLe a c = true := by
  simp only [slotLe]
  by_cases hab : dateTimeVal a = dateTimeVal b <;>
    by_cases hbc : dateTimeVal b = dateTimeVal c
  · rw [if_pos hab, if_pos hbc, if_pos (hab.trans hbc)]
    simp only [decide_eq_true_eq]
    exact le_trans
  · rw [if_pos hab, if_neg hbc, if_neg (hab ▸ hbc)]
    intro _ h2
    rw [hab]
    exact h2
  · rw [if_neg hab, if_pos hbc, if_neg (hbc ▸ hab)]
    intro h1 _
    rw [← hbc]
    exact h1
  · rw [if_neg hab, if_neg hbc]
    simp only [decide_eq_true_eq]
    intro h1 h2
    rw [if_neg (by omega)]
    simp only [decide_eq_true_eq]
    omega

theorem slotLe_true_iff (a b : TimeSlot) :
    slotLe a b = true ↔
      (dateTimeVal a < dateTimeVal b ∨
        (dateTimeVal a = dateTimeVal b ∧ startTotal a ≤ startTotal b)) := by
  simp only [slotLe]
  by_cases h : dateTimeVal a = dateTimeVal b
  · rw [if_pos h]
    simp [h]
  · rw [if_neg h]
    simp [h]

theorem mergeSort_pair {α : Type} (le : α → α → Bool) (a b : α) :
    [a, b].mergeSort le = if le a b then [a, b] else [b, a] := by
  simp [List.mergeSort, List.merge]

/-- C6: after every `addSlot` call the slot list is sorted ascending by
`(date, startHour * 60 + startMin)` — date first, then start-of-day offset —
regardless of insertion order; in particular `add s1; add s2` with `s1`
chronologically later than `s2` yields `[s2, s1]`. -/
theorem C6_addSlot_sorted :
    (∀ (slots : List TimeSlot) (slot : TimeSlot),
      (addSlot slots slot).Pairwise fun a b =>
        dateTimeVal a < dateTimeVal b ∨
          (dateTimeVal a = dateTimeVal b ∧ startTotal a ≤ startTotal b)) ∧
    (∀ s1 s2 : TimeSlot,
      dateTimeVal s2 < dateTimeVal s1 ∨
        (dateTimeVal s2 = dateTimeVal s1 ∧ startTotal s2 < startTotal s1) →
      addSlot (addSlot [] s1) s2 = [s2, s1]) := by
  constructor
  · intro slots slot
    have hs := List.sorted_mergeSort slotLe_trans slotLe_total (slots ++ [slot])
    exact hs.imp fun h => (slotLe_true_iff _ _).mp h
  · intro s1 s2 hlt
    have h1 : addSlot [] s1 = [s1] := by
      simp [addSlot, sortSlots, List.mergeSort_singleton]
    rw [h1]
    have h2 : slotLe s1 s2 = false := by
      rw [Bool.eq_false_iff]
      intro hc
      rcases (slotLe_true_iff s1 s2).mp hc with h | ⟨heq, hle⟩ <;>
        rcases hlt with h' | ⟨heq', hlt'⟩
      · omega
      · omega
      · omega
      · exact absurd hle (not_le.mpr hlt')
    show sortSlots ([s1] ++ [s2]) = [s2, s1]
    rw [sortSlots, List.cons_append, List.nil_append, mergeSort_pair, h2]
    simp

/-- Witness for C6: adding the later slot first still yields the
chronological order `[earlier, later]`. -/
theorem C6_addSlot_sorted_witness :
    addSlot (addSlot [] slotLater) slotEarlier = [slotEarlier, slotLater] :=
  C6_addSlot_sorted.2 slotLater slotEarlier
    (Or.inl (by norm_num [dateTimeVal, slotLater, slotEarlier]))

/-- C7: with a valid date, `isDuplicate` is true exactly when some stored slot
agrees with the candidate on all five of
`(date, startHour, startMin, endHour, endMin)` — a value-level comparison, so
it holds for a candidate that is a distinct object from the matching stored
slot; a null/undefined candidate or one with an invalid (NaN-time) date is
always reported as a duplicate. -/
theorem C7_isDuplicate_spec :
    (∀ slots : List TimeSlot, isDuplicate slots none = true) ∧
    (∀ (slots : List TimeSlot) (ns : TimeSlot), ns.date = none →
      isDuplicate slots (some ns) = true) ∧
    (∀ (slots : List TimeSlot) (ns : TimeSlot) (t : ℤ), ns.date = some t →
      (isDuplicate slots (some ns) = true ↔
        ∃ s ∈ slots, s.date = ns.date ∧ s.startHour = ns.startHour ∧
          s.startMin = ns.startMin ∧ s.endHour = ns.endHour ∧ s.endMin = ns.endMin)) := by
  refine ⟨fun _ => rfl, ?_, ?_⟩
  · intro slots ns h
    simp [isDuplicate, h]
  · intro slots ns t h
    simp only [isDuplicate, h, List.any_eq_true, Bool.and_eq_true, decide_eq_true_eq]
    constructor
    · rintro ⟨s, hs, ⟨⟨⟨hd, h1⟩, h2⟩, h3⟩, h4⟩
      exact ⟨s, hs, h ▸ hd, h1, h2, h3, h4⟩
    · rintro ⟨s, hs, hd, h1, h2, h3, h4⟩
      exact ⟨s, hs, ⟨⟨⟨h ▸ hd, h1⟩, h2⟩, h3⟩, h4⟩

/-- Witness for C7: the distinct-object candidate is flagged as a
duplicate. -/
theorem C7_isDuplicate_spec_witness :
    isDuplicate [slotStored] (some slotCandidate) = true :=
  (C7_isDuplicate_spec.2.2 [slotStored] slotCandidate 5 rfl).mpr
    ⟨slotStored, by simp, rfl, rfl, rfl, rfl, rfl⟩

theorem length_filter_add_length_filter_not {α : Type} (l : List α) (p : α → Bool) :
    (l.filter p).length + (l.filter fun a => !(p a)).length = l.length := by
  induction l with
  | nil => rfl
  | cons x xs ih => by_cases h : p x <;> simp [List.filter_cons, h] <;> omega

/-- C8: `filterByVisibleDates` keeps exactly the slots whose `column.dateKey`
is a member of the visible-key set, in their existing order (the kept list is
a sublist of the original); the removed slots — whose overlay handles are
released — are exactly the others; and the UI refresh (`updateSlotList`) is
triggered if and only if at least one slot was removed. -/
theorem C8_filterByVisibleDates_spec (slots : List TimeSlot)
    (visibleDateKeys : List String) :
    (filterByVisibleDates slots visibleDateKeys).slots =
        slots.filter (isVisibleSlot visibleDateKeys) ∧
    (filterByVisibleDates slots visibleDateKeys).slots.Sublist slots ∧
    (filterByVisibleDates slots visibleDateKeys).removed =
        slots.filter (fun s => !(isVisibleSlot visibleDateKeys s)) ∧
    ((filterByVisibleDates slots visibleDateKeys).uiUpdated = false ↔
        (filterByVisibleDates slots visibleDateKeys).removed = []) := by
  refine ⟨rfl, List.filter_sublist _, rfl, ?_⟩
  simp only [filterByVisibleDates, decide_eq_false_iff_not, ne_eq, not_not]
  have hpart := length_filter_add_length_filter_not slots (isVisibleSlot visibleDateKeys)
  constructor
  · intro hlen
    have : (slots.filter fun s => !(isVisibleSlot visibleDateKeys s)).length = 0 := by omega
    exact List.length_eq_zero.mp this
  · intro hrem
    rw [hrem] at hpart
    simp only [List.length_nil] at hpart
    omega

/-- C9: a pointer-up ending a drag of less than `MIN_DRAG_DISTANCE_PX = 5`
pixels creates no `TimeSlot`, leaves the Selection Store unchanged, removes
the temporary overlay, and returns the drag state to Idle
(`isDragging = false`). -/
theorem C9_short_drag_no_slot (rectTop hourHeight : Option ℚ) (st : DragState)
    (slots : List TimeSlot) (col : GridColumn)
    (hdrag : st.isDragging = true) (hcol : st.dateColumn = some col)
    (hshort : |st.currentY - st.startY| < CONFIG.MIN_DRAG_DISTANCE_PX) :
    handleMouseUp rectTop hourHeight st slots =
      ⟨{ st with isDragging := false, tempOverlay := false }, slots, none⟩ := by
  simp [handleMouseUp, hdrag, hcol, hshort]

/-- Witness for C9: the three-pixel drag is rejected with the store left
empty, no slot created, and the overlay removed. -/
theorem C9_short_drag_no_slot_witness :
    handleMouseUp (some 0) (some 48) dragShort [] =
      ⟨{ dragShort with isDragging := false, tempOverlay := false }, [], none⟩ :=
  C9_short_drag_no_slot (some 0) (some 48) dragShort [] colPrev rfl rfl
    (by norm_num [dragShort, CONFIG.MIN_DRAG_DISTANCE_PX])

theorem jsTruncQ_eq_floor {q : ℚ} (h : 0 ≤ q) : jsTruncQ q = ⌊q⌋ := by
  rw [jsTruncQ, if_pos h]

theorem jsTruncQ_eq_ceil {q : ℚ} (h : ¬0 ≤ q) : jsTruncQ q = ⌈q⌉ := by
  rw [jsTruncQ, if_neg h]

theorem total_snapped_eq (k : ℤ) (h0 : 0 ≤ k) (h95 : k ≤ 95) :
    clampHour (⌊((k : ℚ) * 15) / 60⌋ : ℚ) * 60 + clampMinute (jsRem ((k : ℚ) * 15) 60) =
      (k : ℚ) * 15 := by
  obtain ⟨q, r, hk, hr0, hr4, hq0, hq23⟩ :
      ∃ q r : ℤ, k = 4 * q + r ∧ 0 ≤ r ∧ r < 4 ∧ 0 ≤ q ∧ q ≤ 23 := by
    refine ⟨k / 4, k % 4, ?_, ?_, ?_, ?_, ?_⟩ <;> omega
  have hval : ((k : ℚ) * 15) / 60 = (q : ℚ) + (r : ℚ) / 4 := by
    have : (k : ℚ) = 4 * (q : ℚ) + (r : ℚ) := by exact_mod_cast congrArg (Int.cast : ℤ → ℚ) hk
    rw [this]; ring
  have hrq0 : (0 : ℚ) ≤ (r : ℚ) := by exact_mod_cast hr0
  have hrq4 : (r : ℚ) < 4 := by exact_mod_cast hr4
  have hfloor : (⌊((k : ℚ) * 15) / 60⌋ : ℤ) = q := by
    rw [hval, Int.floor_eq_iff]
    constructor
    · linarith
    · linarith
  have htr : jsTruncQ (((k : ℚ) * 15) / 60) = q := by
    rw [jsTruncQ_eq_floor (by rw [hval]; positivity), hfloor]
  have hrem : jsRem ((k : ℚ) * 15) 60 = (r : ℚ) * 15 := by
    rw [jsRem, htr]
    have : (k : ℚ) = 4 * (q : ℚ) + (r : ℚ) := by exact_mod_cast congrArg (Int.cast : ℤ → ℚ) hk
    rw [this]; ring
  have hqq0 : (0 : ℚ) ≤ (q : ℚ) := by exact_mod_cast hq0
  have hqq23 : (q : ℚ) ≤ 23 := by exact_mod_cast hq23
  have hch : clampHour ((⌊((k : ℚ) * 15) / 60⌋ : ℤ) : ℚ) = (q : ℚ) := by
    rw [hfloor, clampHour, min_eq_right hqq23, max_eq_right hqq0]
  have hrq3 : (r : ℚ) ≤ 3 := by exact_mod_cast (show r ≤ 3 by omega)
  have hcm : clampMinute ((r : ℚ) * 15) = (r : ℚ) * 15 := by
    rw [clampMinute, min_eq_right (by linarith), max_eq_right (by linarith)]
  rw [hch, hrem, hcm]
  have : (k : ℚ) = 4 * (q : ℚ) + (r : ℚ) := by exact_mod_cast congrArg (Int.cast : ℤ → ℚ) hk
  rw [this]; ring

theorem total_snapped_neg (k : ℤ) (hneg : k < 0) :
    clampHour (⌊((k : ℚ) * 15) / 60⌋ : ℚ) * 60 + clampMinute (jsRem ((k : ℚ) * 15) 60) = 0 := by
  have hkq : ((k : ℚ) * 15) / 60 < 0 := by
    have : (k : ℚ) < 0 := by exact_mod_cast hneg
    nlinarith
  have hfloor : (⌊((k : ℚ) * 15) / 60⌋ : ℤ) < 0 := by
    exact_mod_cast Int.floor_lt.mpr (by exact_mod_cast hkq)
  have hch : clampHour ((⌊((k : ℚ) * 15) / 60⌋ : ℤ) : ℚ) = 0 := by
    rw [clampHour]
    have hfl : ((⌊((k : ℚ) * 15) / 60⌋ : ℤ) : ℚ) ≤ 0 := by exact_mod_cast le_of_lt hfloor
    rw [min_eq_right (by linarith), max_eq_left hfl]
  have hrem : jsRem ((k : ℚ) * 15) 60 ≤ 0 := by
    rw [jsRem, jsTruncQ_eq_ceil (not_le.mpr hkq)]
    have hceil := Int.le_ceil (((k : ℚ) * 15) / 60)
    nlinarith
  have hcm : clampMinute (jsRem ((k : ℚ) * 15) 60) = 0 := by
    rw [clampMinute, min_eq_right (by linarith), max_eq_left hrem]
  rw [hch, hcm]
  ring

theorem total_clamped_nonneg (x y : ℚ) : 0 ≤ clampHour x * 60 + clampMinute y := by
  have h1 := clampHour_nonneg x
  have h2 := clampMinute_nonneg y
  linarith

theorem getTimeFromY_total_mono (y1 y2 t h : ℚ) (hpos : 0 < h) (h12 : y1 ≤ y2)
    (hcap : snapToGrid ((y2 - t) / h * 60) ≤ 1425) :
    (getTimeFromY (some y1) (some t) (some h)).hour * 60 +
        (getTimeFromY (some y1) (some t) (some h)).minute ≤
      (getTimeFromY (some y2) (some t) (some h)).hour * 60 +
        (getTimeFromY (some y2) (some t) (some h)).minute := by
  rw [getTimeFromY_eval y1 t h hpos, getTimeFromY_eval y2 t h hpos]
  set r1 := (y1 - t) / h * 60 with hr1
  set r2 := (y2 - t) / h * 60 with hr2
  have hraw : r1 ≤ r2 := by
    rw [hr1, hr2]
    have hd : (y1 - t) / h ≤ (y2 - t) / h :=
      (div_le_div_iff_of_pos_right hpos).mpr (by linarith)
    linarith
  have hk1 : snapToGrid r1 = (jsRound (r1 / 15) : ℚ) * 15 := snapToGrid_eq r1
  have hk2 : snapToGrid r2 = (jsRound (r2 / 15) : ℚ) * 15 := snapToGrid_eq r2
  set k1 := jsRound (r1 / 15) with hkd1
  set k2 := jsRound (r2 / 15) with hkd2
  have hkle : k1 ≤ k2 := jsRound_mono (by linarith)
  have hk295 : k2 ≤ 95 := by
    by_contra hgt
    push_neg at hgt
    have : (96 : ℚ) ≤ (k2 : ℚ) := by exact_mod_cast hgt
    rw [hk2] at hcap
    nlinarith
  rw [hk1, hk2]
  by_cases hk1neg : k1 < 0
  · rw [mul_comm ((k2 : ℚ)) 15, mul_comm ((k1 : ℚ)) 15]
    rw [mul_comm (15 : ℚ) (k1 : ℚ), mul_comm (15 : ℚ) (k2 : ℚ)]
    rw [total_snapped_neg k1 hk1neg]
    exact total_clamped_nonneg _ _
  · push_neg at hk1neg
    rw [total_snapped_eq k1 hk1neg (le_trans hkle hk295),
      total_snapped_eq k2 (le_trans hk1neg hkle) hk295]
    have : (k1 : ℚ) ≤ (k2 : ℚ) := by exact_mod_cast hkle
    nlinarith

/-- C3 (amended): for a drag accepted by the minimum-drag-distance check, the
`TimeSlot` that `handleMouseUp` constructs (and, unless it is a duplicate,
adds with its overlay attached) satisfies
`startHour * 60 + startMin ≤ endHour * 60 + endMin` — NOT strictly `<` —
provided the snapped end offset stays within the day
(`snapToGrid` of the raw end offset at most `23 * 60 + 45 = 1425`).  A 5 px
drag can snap both endpoints to the same granule (equality), and beyond
23:45 the hour clamp even inverts the order, so the strict invariant claimed
by the specification does not hold. -/
theorem C3_drag_slot_start_le_end (t h : ℚ) (st : DragState) (slots : List TimeSlot)
    (col : GridColumn)
    (hdrag : st.isDragging = true) (hcol : st.dateColumn = some col)
    (haccept : CONFIG.MIN_DRAG_DISTANCE_PX ≤ |st.currentY - st.startY|)
    (hpos : 0 < h)
    (hcap : snapToGrid ((max st.startY st.currentY - t) / h * 60) ≤ 1425) :
    (handleMouseUp (some t) (some h) st slots).created =
        some (slotFromDrag (some t) (some h) col st.startY st.currentY) ∧
    (slotFromDrag (some t) (some h) col st.startY st.currentY).startHour * 60 +
        (slotFromDrag (some t) (some h) col st.startY st.currentY).startMin ≤
      (slotFromDrag (some t) (some h) col st.startY st.currentY).endHour * 60 +
        (slotFromDrag (some t) (some h) col st.startY st.currentY).endMin := by
  constructor
  · have hns : ¬|st.currentY - st.startY| < CONFIG.MIN_DRAG_DISTANCE_PX := not_lt.mpr haccept
    simp only [handleMouseUp, hdrag, hcol]
    rw [if_neg hns]
    split_ifs <;> rfl
  · simp only [slotFromDrag]
    exact getTimeFromY_total_mono (min st.startY st.currentY) (max st.startY st.currentY)
      t h hpos min_le_max hcap

/-- Witness for C3 (amended): the one-hour drag `Y ∈ [0, 48]` with
`hourHeight = 48` produces a slot whose start does not exceed its end. -/
theorem C3_drag_slot_start_le_end_witness :
    (handleMouseUp (some 0) (some 48) dragHour []).created =
        some (slotFromDrag (some 0) (some 48) colPrev dragHour.startY dragHour.currentY) ∧
    (slotFromDrag (some 0) (some 48) colPrev dragHour.startY dragHour.currentY).startHour * 60 +
        (slotFromDrag (some 0) (some 48) colPrev dragHour.startY dragHour.currentY).startMin ≤
      (slotFromDrag (some 0) (some 48) colPrev dragHour.startY dragHour.currentY).endHour * 60 +
        (slotFromDrag (some 0) (some 48) colPrev dragHour.startY dragHour.currentY).endMin :=
  C3_drag_slot_start_le_end 0 48 dragHour [] colPrev rfl rfl
    (by norm_num [dragHour, CONFIG.MIN_DRAG_DISTANCE_PX])
    (by norm_num)
    (by
      have hmax : max dragHour.startY dragHour.currentY = 48 := by
        norm_num [dragHour]
      rw [hmax, snapToGrid_eq]
      norm_num [jsRound])

/-- Counterexample for C3 as stated: the five-pixel drag from Y=8 to Y=13
(accepted by the minimum-drag-distance check, `hourHeight = 48`,
`rect.top = 0`) snaps both endpoints to 0:15, so the slot added to the store
has `startHour * 60 + startMin = endHour * 60 + endMin`, violating the
claimed strict inequality. -/
theorem C3_counterexample :
    CONFIG.MIN_DRAG_DISTANCE_PX ≤ |dragFive.currentY - dragFive.startY| ∧
    handleMouseUp (some 0) (some 48) dragFive [] =
      ⟨{ dragFive with isDragging := false, tempOverlay := false },
        [{ slotDegenerate with overlay := true }], some slotDegenerate⟩ ∧
    slotDegenerate.startHour * 60 + slotDegenerate.startMin =
      slotDegenerate.endHour * 60 + slotDegenerate.endMin := by
  have hstart : getTimeFromY (some (min (8 : ℚ) 13)) (some 0) (some 48) = ⟨0, 15⟩ := by
    rw [show min (8 : ℚ) 13 = 8 by norm_num, getTimeFromY_eval 8 0 48 (by norm_num)]
    rw [show ((8 : ℚ) - 0) / 48 * 60 = 10 by norm_num, snapToGrid_eq]
    rw [show jsRound ((10 : ℚ) / 15) = 1 by norm_num [jsRound]]
    norm_num [jsRem, jsTruncQ, clampHour, clampMinute]
  have hend : getTimeFromY (some (max (8 : ℚ) 13)) (some 0) (some 48) = ⟨0, 15⟩ := by
    rw [show max (8 : ℚ) 13 = 13 by norm_num, getTimeFromY_eval 13 0 48 (by norm_num)]
    rw [show ((13 : ℚ) - 0) / 48 * 60 = 65 / 4 by norm_num, snapToGrid_eq]
    rw [show jsRound ((65 : ℚ) / 4 / 15) = 1 by norm_num [jsRound]]
    norm_num [jsRem, jsTruncQ, clampHour, clampMinute]
  have hslot : slotFromDrag (some 0) (some 48) colPrev 8 13 = slotDegenerate := by
    simp only [slotFromDrag, hstart, hend]
    simp [slotDegenerate, colPrev]
  refine ⟨by norm_num [dragFive, CONFIG.MIN_DRAG_DISTANCE_PX], ?_,
    by norm_num [slotDegenerate]⟩
  have hdup : isDuplicate [] (some slotDegenerate) = false := rfl
  simp only [handleMouseUp, dragFive]
  rw [if_neg (by norm_num [CONFIG.MIN_DRAG_DISTANCE_PX])]
  simp only [hslot, hdup]
  simp [addSlot, sortSlots, List.mergeSort_singleton, dragFive]

theorem binarySearchColumns_some (columns : List GridColumn) (x : ℚ) (lo hi : ℤ) :
    ∀ c, binarySearchColumns columns x lo hi = some c →
      c ∈ columns ∧ c.left ≤ x ∧ x ≤ c.right := by
  induction lo, hi using binarySearchColumns.induct columns x with
  | case1 lo hi hle hnone =>
    intro c hc
    rw [binarySearchColumns] at hc
    simp [hle, hnone] at hc
  | case2 lo hi hle c' hsome hcont =>
    intro c hc
    rw [binarySearchColumns] at hc
    simp only [hle, dif_pos, hsome, if_pos hcont] at hc
    cases hc
    obtain ⟨hlen, hget⟩ := List.getElem?_eq_some_iff.mp hsome
    exact ⟨hget ▸ List.getElem_mem hlen, hcont⟩
  | case3 lo hi hle c' hsome hcont hlt ih =>
    intro c hc
    rw [binarySearchColumns] at hc
    simp only [hle, dif_pos, hsome, if_neg hcont, if_pos hlt] at hc
    exact ih c hc
  | case4 lo hi hle c' hsome hcont hlt ih =>
    intro c hc
    rw [binarySearchColumns] at hc
    simp only [hle, dif_pos, hsome, if_neg hcont, if_neg hlt] at hc
    exact ih c hc
  | case5 lo hi hle =>
    intro c hc
    rw [binarySearchColumns] at hc
    simp [hle] at hc

theorem binarySearchColumns_none (columns : List GridColumn) (x : ℚ)
    (hchain : ∀ i j (_hi : i < columns.length) (_hj : j < columns.length), i < j →
      (columns[i]).right < (columns[j]).left)
    (hIntervals : ∀ c ∈ columns, c.left ≤ c.right)
    (lo hi : ℤ) :
    0 ≤ lo → hi < (columns.length : ℤ) →
      binarySearchColumns columns x lo hi = none →
      ∀ i : ℕ, lo ≤ (i : ℤ) → (i : ℤ) ≤ hi → ∀ _hilen : i < columns.length,
        ¬((columns[i]).left ≤ x ∧ x ≤ (columns[i]).right) := by
  induction lo, hi using binarySearchColumns.induct columns x with
  | case1 lo hi hle hnone =>
    intro hlo0 hhilen _ i _ _ _
    exfalso
    have hmid : ((lo + hi) / 2).toNat < columns.length := by omega
    rw [List.getElem?_eq_getElem hmid] at hnone
    cases hnone
  | case2 lo hi hle c' hsome hcont =>
    intro _ _ hbs
    exfalso
    rw [binarySearchColumns] at hbs
    simp [hle, hsome, hcont] at hbs
  | case3 lo hi hle c' hsome hcont hlt ih =>
    intro hlo0 hhilen hbs i hilo hihi hilen
    rw [binarySearchColumns] at hbs
    simp only [hle, dif_pos, hsome, if_neg hcont, if_pos hlt] at hbs
    have hmid : ((lo + hi) / 2).toNat < columns.length := by omega
    obtain ⟨hmidlen, hget⟩ := List.getElem?_eq_some_iff.mp hsome
    by_cases hiw : (i : ℤ) ≤ (lo + hi) / 2 - 1
    · exact ih hlo0 (by omega) hbs i hilo hiw hilen
    · -- mid ≤ i: every such column starts strictly to the right of x
      intro hcontra
      rcases Nat.lt_or_ge ((lo + hi) / 2).toNat i with hmi | hmi
      · have hch := hchain ((lo + hi) / 2).toNat i hmid hilen hmi
        have hne := hIntervals _ (List.getElem_mem hmid)
        rw [hget] at hch hne
        have : x < (columns[i]).left := by linarith [hlt]
        linarith [hcontra.1]
      · have hieq : i = ((lo + hi) / 2).toNat := by omega
        subst hieq
        rw [hget] at hcontra
        exact absurd hcontra.1 (not_le.mpr hlt)
  | case4 lo hi hle c' hsome hcont hlt ih =>
    intro hlo0 hhilen hbs i hilo hihi hilen
    rw [binarySearchColumns] at hbs
    simp only [hle, dif_pos, hsome, if_neg hcont, if_neg hlt] at hbs
    have hmid : ((lo + hi) / 2).toNat < columns.length := by omega
    obtain ⟨hmidlen, hget⟩ := List.getElem?_eq_some_iff.mp hsome
    have hxgt : (c').right < x := by
      rcases not_and_or.mp hcont with h | h
      · exact absurd (not_lt.mp hlt) h
      · exact not_le.mp h
    by_cases hiw : (lo + hi) / 2 + 1 ≤ (i : ℤ)
    · exact ih (by omega) hhilen hbs i hiw hihi hilen
    · intro hcontra
      rcases Nat.lt_or_ge i ((lo + hi) / 2).toNat with him | him
      · have hch := hchain i ((lo + hi) / 2).toNat hilen hmid him
        have hne := hIntervals _ (List.getElem_mem hmid)
        rw [hget] at hch hne
        linarith [hcontra.2]
      · have hieq : i = ((lo + hi) / 2).toNat := by omega
        subst hieq
        rw [hget] at hcontra
        linarith [hcontra.2]
  | case5 lo hi hle =>
    intro _ _ _ i hilo hihi _
    omega

theorem columns_contains_unique (columns : List GridColumn) (x : ℚ)
    (hchain : ∀ i j (_hi : i < columns.length) (_hj : j < columns.length), i < j →
      (columns[i]).right < (columns[j]).left) :
    ∀ c1 ∈ columns, ∀ c2 ∈ columns,
      c1.left ≤ x ∧ x ≤ c1.right → c2.left ≤ x ∧ x ≤ c2.right → c1 = c2 := by
  intro c1 h1 c2 h2 hp1 hp2
  obtain ⟨i, hilen, hci⟩ := List.mem_iff_getElem.mp h1
  obtain ⟨j, hjlen, hcj⟩ := List.mem_iff_getElem.mp h2
  rcases lt_trichotomy i j with hij | hij | hij
  · exfalso
    have hch := hchain i j hilen hjlen hij
    rw [hci, hcj] at hch
    linarith [hp1.2, hp2.1]
  · subst hij
    rw [← hci, ← hcj]
  · exfalso
    have hch := hchain j i hjlen hilen hij
    rw [hci, hcj] at hch
    linarith [hp2.2, hp1.1]

/-- C10: for a column list sorted ascending by `left`, with nonempty pairwise
disjoint `[left, right]` intervals, and any finite `x`, the binary-search
branch of `getColumnFromX` (taken when there are more than 10 columns)
returns the same result as the linear-scan branch (taken otherwise): the
first — by disjointness, the unique — column whose interval contains `x`, or
`none` when no interval does; consequently `getColumnFromX` agrees with the
linear scan whichever branch it takes. -/
theorem C10_binarySearch_eq_linear (columns : List GridColumn) (x : ℚ)
    (hIntervals : ∀ c ∈ columns, c.left ≤ c.right)
    (hSorted : columns.Pairwise fun a b => a.left ≤ b.left)
    (hDisjoint : columns.Pairwise fun a b =>
      ∀ q : ℚ, ¬(a.left ≤ q ∧ q ≤ a.right ∧ b.left ≤ q ∧ q ≤ b.right)) :
    binarySearchColumns columns x 0 ((columns.length : ℤ) - 1) =
        linearColumnFromX columns x ∧
    getColumnFromX columns (some x) = linearColumnFromX columns x := by
  have hchain : ∀ i j (_hi : i < columns.length) (_hj : j < columns.length), i < j →
      (columns[i]).right < (columns[j]).left := by
    intro i j hi hj hij
    have hle := List.pairwise_iff_getElem.mp hSorted i j hi hj hij
    have hdis := List.pairwise_iff_getElem.mp hDisjoint i j hi hj hij
    have hi1 := hIntervals _ (List.getElem_mem hi)
    have hj1 := hIntervals _ (List.getElem_mem hj)
    by_contra hcon
    push_neg at hcon
    exact hdis (columns[j]).left ⟨hle, hcon, le_refl _, hj1⟩
  have hmain : binarySearchColumns columns x 0 ((columns.length : ℤ) - 1) =
      linearColumnFromX columns x := by
    cases hfind : linearColumnFromX columns x with
    | none =>
      have hall : ∀ c ∈ columns, ¬(c.left ≤ x ∧ x ≤ c.right) := by
        intro c hc
        have hb := List.find?_eq_none.mp hfind c hc
        simpa using hb
      cases hbs : binarySearchColumns columns x 0 ((columns.length : ℤ) - 1) with
      | none => rfl
      | some c =>
        obtain ⟨hmem, hcont⟩ := binarySearchColumns_some columns x _ _ c hbs
        exact absurd hcont (hall c hmem)
    | some c =>
      have hpc : c.left ≤ x ∧ x ≤ c.right := by
        have hb := List.find?_some hfind
        simpa using hb
      have hmem : c ∈ columns := List.mem_of_find?_eq_some hfind
      cases hbs : binarySearchColumns columns x 0 ((columns.length : ℤ) - 1) with
      | none =>
        obtain ⟨i, hilen, hci⟩ := List.mem_iff_getElem.mp hmem
        have hno := binarySearchColumns_none columns x hchain hIntervals 0 _
          (by omega) (by omega) hbs i (by omega) (by omega) hilen
        rw [hci] at hno
        exact absurd hpc hno
      | some c' =>
        obtain ⟨hmem', hcont'⟩ := binarySearchColumns_some columns x _ _ c' hbs
        exact congrArg some (columns_contains_unique columns x hchain c' hmem' c hmem hcont' hpc)
  refine ⟨hmain, ?_⟩
  simp only [getColumnFromX]
  split_ifs with hlen
  · rfl
  · exact hmain

/-- Witness for C10: the two sample columns `[0, 10]` and `[20, 30]` are
sorted and disjoint, and both search strategies agree at `x = 5`. -/
theorem C10_binarySearch_eq_linear_witness :
    binarySearchColumns [colAt0, colAt20] 5 0 (([colAt0, colAt20].length : ℤ) - 1) =
        linearColumnFromX [colAt0, colAt20] 5 ∧
    getColumnFromX [colAt0, colAt20] (some 5) = linearColumnFromX [colAt0, colAt20] 5 :=
  C10_binarySearch_eq_linear [colAt0, colAt20] 5
    (by
      intro c hc
      simp only [List.mem_cons, List.mem_singleton, List.not_mem_nil, or_false] at hc
      rcases hc with hc | hc <;> rw [hc] <;> norm_num [colAt0, colAt20])
    (by
      refine List.pairwise_cons.mpr ⟨?_, ?_⟩
      · intro b hb
        rcases List.mem_singleton.mp hb with hb
        rw [hb]; norm_num [colAt0, colAt20]
      · exact List.pairwise_singleton _ _)
    (by
      refine List.pairwise_cons.mpr ⟨?_, ?_⟩
      · intro b hb q hq
        rcases List.mem_singleton.mp hb with hb
        rw [hb] at hq
        simp only [colAt0, colAt20] at hq
        linarith [hq.1, hq.2.1, hq.2.2.1, hq.2.2.2]
      · exact List.pairwise_singleton _ _)
